import Mathlib

/-
  Verification development for the SunFlux DX-cluster ingestion engine
  (src/dxcluster.py).  Python strings are modelled as `List Char`, Python
  floats as `ℚ` (the protocol values involved are small decimals), raised
  exceptions as explicit outcome constructors, and the sqlite/telnet
  side effects as explicit traces or oracles.
-/

/-- Python `str.upper()` restricted to the character-wise case mapping. -/
def pyUpper (s : List Char) : List Char := s.map Char.toUpper

/-- Python `\s` (ASCII whitespace): space, tab, newline, CR, VT, FF. -/
def isPySpace (c : Char) : Bool :=
  c = ' ' || c = '\t' || c = '\n' || c = '\r' || c.toNat = 11 || c.toNat = 12

/-- Python `str.rstrip()` with no argument: drop trailing whitespace. -/
def pyRstrip (s : List Char) : List Char :=
  (s.reverse.dropWhile isPySpace).reverse

/-- Python `str.strip(chars)`: drop characters satisfying `f` from both ends. -/
def pyStripChars (f : Char → Bool) (s : List Char) : List Char :=
  ((s.dropWhile f).reverse.dropWhile f).reverse

/-- Python string comparison `a < b`: lexicographic on code points
(used by `sorted(prefixes, reverse=True)` in `DXCC.lookup`). -/
def pyStrLtB : List Char → List Char → Bool
  | [], [] => false
  | [], _ :: _ => true
  | _ :: _, [] => false
  | a :: as, b :: bs =>
    if a < b then true
    else if b < a then false
    else pyStrLtB as bs

/-- The weak order `a ≥ b` on Python strings, the comparison under which
`sorted(…, reverse=True)` lists elements. -/
def pyGeP (a b : List Char) : Prop := pyStrLtB a b = false

instance : DecidableRel pyGeP :=
  fun a b => inferInstanceAs (Decidable (pyStrLtB a b = false))

theorem pyStrLtB_irrefl : ∀ a : List Char, pyStrLtB a a = false
  | [] => rfl
  | _ :: as => by simp [pyStrLtB, pyStrLtB_irrefl as]

theorem pyStrLtB_asymm : ∀ {a b : List Char},
    pyStrLtB a b = true → pyStrLtB b a = false
  | [], [], h => by simp [pyStrLtB] at h
  | [], _ :: _, _ => rfl
  | _ :: _, [], h => by simp [pyStrLtB] at h
  | a :: as, b :: bs, h => by
    simp only [pyStrLtB] at h ⊢
    rcases lt_trichotomy a b with h1 | h1 | h1
    · simp [h1, asymm h1]
    · subst h1
      simp only [lt_irrefl, if_false, if_neg] at h ⊢
      exact pyStrLtB_asymm h
    · simp [h1, asymm h1] at h

theorem pyStrLtB_trans : ∀ {a b c : List Char},
    pyStrLtB a b = true → pyStrLtB b c = true → pyStrLtB a c = true
  | [], [], _, h1, _ => by simp [pyStrLtB] at h1
  | [], _ :: _, [], _, h2 => by simp [pyStrLtB] at h2
  | [], _ :: _, _ :: _, _, _ => rfl
  | _ :: _, [], _, h1, _ => by simp [pyStrLtB] at h1
  | _ :: _, _ :: _, [], _, h2 => by simp [pyStrLtB] at h2
  | a :: as, b :: bs, c :: cs, h1, h2 => by
    simp only [pyStrLtB] at h1 h2 ⊢
    rcases lt_trichotomy a b with hab | hab | hab
    · rcases lt_trichotomy b c with hbc | hbc | hbc
      · have : a < c := lt_trans hab hbc
        simp [this]
      · subst hbc; simp [hab]
      · simp [asymm hbc, hbc] at h2
    · subst hab
      rcases lt_trichotomy a c with hac | hac | hac
      · simp [hac]
      · subst hac
        simp only [lt_irrefl, if_false, if_neg] at h1 h2 ⊢
        exact pyStrLtB_trans h1 h2
      · simp [asymm hac, hac] at h2
    · simp [asymm hab, hab] at h1

theorem pyStrLtB_eq_or_gt : ∀ {a b : List Char},
    pyStrLtB a b = false → a = b ∨ pyStrLtB b a = true
  | [], [], _ => Or.inl rfl
  | [], _ :: _, h => by simp [pyStrLtB] at h
  | _ :: _, [], _ => Or.inr rfl
  | a :: as, b :: bs, h => by
    simp only [pyStrLtB] at h ⊢
    rcases lt_trichotomy a b with hab | hab | hab
    · simp [hab] at h
    · subst hab
      simp only [lt_irrefl, if_false, if_neg] at h ⊢
      rcases pyStrLtB_eq_or_gt h with h' | h'
      · exact Or.inl (by rw [h'])
      · exact Or.inr h'
    · exact Or.inr (by simp [hab])

instance : IsTotal (List Char) pyGeP :=
  ⟨fun a b => by
    unfold pyGeP
    by_cases h : pyStrLtB a b = true
    · exact Or.inr (pyStrLtB_asymm h)
    · exact Or.inl (by simpa using h)⟩

instance : IsTrans (List Char) pyGeP :=
  ⟨fun a b c hab hbc => by
    unfold pyGeP at hab hbc ⊢
    by_contra hac
    have hac' : pyStrLtB a c = true := by simpa using hac
    rcases pyStrLtB_eq_or_gt hab with h | h
    · subst h; simp [hac'] at hbc
    · have := pyStrLtB_trans h hac'
      simp [this] at hbc⟩

/-- A strict leading substring is strictly smaller in Python string order. -/
theorem pyStrLtB_of_take : ∀ (p q : List Char),
    p ≠ q → q.take p.length = p → pyStrLtB p q = true
  | [], [], hne, _ => absurd rfl hne
  | [], _ :: _, _, _ => rfl
  | _ :: _, [], _, htake => by simp at htake
  | a :: as, b :: bs, hne, htake => by
    simp only [List.length_cons, List.take_succ_cons, List.cons.injEq] at htake
    obtain ⟨hb, hbs⟩ := htake
    subst hb
    simp only [pyStrLtB, lt_irrefl, if_false, if_neg]
    exact pyStrLtB_of_take as bs (fun h => hne (by rw [h])) hbs

/-
  EntityResolver: class `DXCC` of src/dxcluster.py.
-/

/-- One row of the prefix database (`DXCCRecord`, dxcluster.py lines 129-150).
`pfx` stands for the source's `prefix` slot (a Lean keyword). -/
structure DXCCRecord where
  pfx : List Char
  country : List Char
  ctn : List Char
  continent : List Char
  cqzone : Int
  ituzone : Int
  lat : ℚ
  lon : ℚ
  tz : ℚ
deriving DecidableEq, Repr

/-- The in-memory prefix table of class `DXCC`.  `__init__` loads `dxmap` from
the external `bigcty/cty.csv` data file (not part of the repository) and sets
`maxLen = max(len(k) for k in map)`; theorems carry that length bound as a
hypothesis instead of re-reading the data file. -/
structure DXCC where
  dxmap : List (List Char × DXCCRecord)
  maxLen : Nat
deriving DecidableEq, Repr

/-- Python `dict` membership / subscript on the prefix table. -/
def assocFind (m : List (List Char × DXCCRecord)) (k : List Char) :
    Option DXCCRecord :=
  match m with
  | [] => none
  | (k', r) :: rest => if k' = k then some r else assocFind rest k

/-- The candidate set `{call[:c] for c in range(max_len, 0, -1)}` of
`DXCC.lookup` (dxcluster.py line 188), as a duplicate-free list. -/
def candList (call : List Char) (maxLen : Nat) : List (List Char) :=
  ((List.range maxLen).map (fun i => call.take (maxLen - i))).dedup

/-- Method `DXCC.lookup` (dxcluster.py lines 186-192): uppercase the call, enumerate
its leading substrings of length `max_len` down to 1, scan them in decreasing
Python-string order (`sorted(prefixes, reverse=True)`), and return the table
record of the first one present; `none` models the raised
`KeyError(f"... not found")`. -/
def DXCC.lookup (d : DXCC) (call0 : List Char) : Option DXCCRecord :=
  let call := pyUpper call0
  let sortedCands := (candList call d.maxLen).insertionSort pyGeP
  match sortedCands.find? (fun p => (assocFind d.dxmap p).isSome) with
  | some p => assocFind d.dxmap p
  | none => none

theorem assocFind_isSome_mem {m : List (List Char × DXCCRecord)}
    {k : List Char} (h : (assocFind m k).isSome = true) :
    ∃ r, (k, r) ∈ m := by
  induction m with
  | nil => simp [assocFind] at h
  | cons p rest ih =>
    obtain ⟨k', r⟩ := p
    by_cases hk : k' = k
    · subst hk
      exact ⟨r, List.mem_cons_self _ _⟩
    · simp only [assocFind, if_neg hk] at h
      obtain ⟨r', hr'⟩ := ih h
      exact ⟨r', List.mem_cons_of_mem _ hr'⟩

theorem assocFind_mem_isSome {m : List (List Char × DXCCRecord)}
    {k : List Char} {r : DXCCRecord} (h : (k, r) ∈ m) :
    (assocFind m k).isSome = true := by
  induction m with
  | nil => simp at h
  | cons p rest ih =>
    obtain ⟨k', r'⟩ := p
    by_cases hk : k' = k
    · simp [assocFind, hk]
    · rcases List.mem_cons.mp h with h' | h'
      · exact absurd (congrArg Prod.fst h').symm hk
      · simpa [assocFind, hk] using ih h'

theorem mem_candList_iff {call : List Char} {maxLen : Nat} {q : List Char} :
    q ∈ candList call maxLen ↔ ∃ c, 1 ≤ c ∧ c ≤ maxLen ∧ q = call.take c := by
  unfold candList
  rw [List.mem_dedup, List.mem_map]
  constructor
  · rintro ⟨i, hi, rfl⟩
    rw [List.mem_range] at hi
    exact ⟨maxLen - i, by omega, by omega, rfl⟩
  · rintro ⟨c, h1, h2, rfl⟩
    refine ⟨maxLen - c, ?_, ?_⟩
    · rw [List.mem_range]; omega
    · congr 1; omega

theorem take_length_take (l : List Char) (c : Nat) :
    l.take (l.take c).length = l.take c := by
  rw [List.length_take]
  rcases Nat.le_total c l.length with h | h
  · rw [Nat.min_eq_left h]
  · rw [Nat.min_eq_right h, List.take_of_length_le h,
        List.take_of_length_le (le_refl _)]

/-- In a list sorted weakly decreasing for Python string order, `find?`
returns the greatest element satisfying the predicate. -/
theorem find?_sorted_eq (pred : List Char → Bool) :
    ∀ (l : List (List Char)), List.Sorted pyGeP l →
    ∀ x, x ∈ l → pred x = true →
    (∀ q, q ∈ l → pred q = true → q = x ∨ pyStrLtB q x = true) →
    l.find? pred = some x := by
  intro l
  induction l with
  | nil => intro _ x hx; simp at hx
  | cons h t ih =>
    intro hsorted x hx hpx hmax
    rw [List.sorted_cons] at hsorted
    by_cases hph : pred h = true
    · have hhx : h = x := by
        rcases hmax h (List.mem_cons_self _ _) hph with h' | h'
        · exact h'
        · exfalso
          rcases List.mem_cons.mp hx with rfl | hxt
          · rw [pyStrLtB_irrefl] at h'; exact Bool.false_ne_true h'
          · have hge := hsorted.1 x hxt
            unfold pyGeP at hge
            rw [hge] at h'
            exact Bool.false_ne_true h'
      rw [List.find?_cons_of_pos _ hph, hhx]
    · have hph' : pred h = false := by simpa using hph
      have hxt : x ∈ t := by
        rcases List.mem_cons.mp hx with rfl | hxt
        · rw [hpx] at hph'; exact absurd hph' (by simp)
        · exact hxt
      rw [List.find?_cons_of_neg _ (by simp [hph'])]
      exact ih hsorted.2 x hxt hpx
        (fun q hq hpq => hmax q (List.mem_cons_of_mem _ hq) hpq)

/-- C5: for every callsign and any two table prefixes P1, P2 with P1 a proper
leading substring of P2, both leading substrings of the uppercased callsign
(P2 being the longest table prefix matching it), `DXCC.lookup` returns the
record mapped to P2; and when no non-empty leading substring of the uppercased
callsign is present in the table, it fails with `KeyError` (modelled `none`)
instead of returning any record. -/
theorem dxcc_lookup_longest_match :
    (∀ (d : DXCC) (call P1 P2 : List Char),
      (∀ p ∈ d.dxmap, p.1.length ≤ d.maxLen) →
      (assocFind d.dxmap P1).isSome = true →
      (assocFind d.dxmap P2).isSome = true →
      P1 ≠ P2 →
      P2.take P1.length = P1 →
      (pyUpper call).take P2.length = P2 →
      (∀ p ∈ d.dxmap, (pyUpper call).take p.1.length = p.1 →
        p.1.length ≤ P2.length) →
      d.lookup call = assocFind d.dxmap P2) ∧
    (∀ (d : DXCC) (call : List Char),
      (∀ p ∈ d.dxmap, p.1 ≠ ([] : List Char)) →
      (∀ p ∈ d.dxmap, (pyUpper call).take p.1.length ≠ p.1) →
      d.lookup call = none) := by
  constructor
  · intro d call P1 P2 hlen hP1 hP2 hne hprop hmatch hmax
    have hP2ne : P2 ≠ [] := by
      intro h
      subst h
      simp at hprop
      exact hne hprop
    have hP2len : 1 ≤ P2.length := by
      cases P2 with
      | nil => exact absurd rfl hP2ne
      | cons _ _ => simp
    obtain ⟨r2, hr2⟩ := assocFind_isSome_mem hP2
    have hP2max : P2.length ≤ d.maxLen := hlen (P2, r2) hr2
    have hP2cand : P2 ∈ candList (pyUpper call) d.maxLen :=
      mem_candList_iff.mpr ⟨P2.length, hP2len, hP2max, hmatch.symm⟩
    have hP2sorted :
        P2 ∈ (candList (pyUpper call) d.maxLen).insertionSort pyGeP :=
      (List.mem_insertionSort pyGeP).mpr hP2cand
    have hfind :
        ((candList (pyUpper call) d.maxLen).insertionSort pyGeP).find?
          (fun p => (assocFind d.dxmap p).isSome) = some P2 := by
      apply find?_sorted_eq _ _ (List.sorted_insertionSort pyGeP _)
        _ hP2sorted (by simpa using hP2)
      intro q hq hpredq
      have hqcand : q ∈ candList (pyUpper call) d.maxLen :=
        (List.mem_insertionSort pyGeP).mp hq
      obtain ⟨c, _, _, hqc⟩ := mem_candList_iff.mp hqcand
      have hqtake : (pyUpper call).take q.length = q := by
        rw [hqc]; exact take_length_take _ _
      obtain ⟨rq, hrq⟩ := assocFind_isSome_mem (by simpa using hpredq)
      have hqlen : q.length ≤ P2.length := hmax (q, rq) hrq hqtake
      by_cases hqeq : q = P2
      · exact Or.inl hqeq
      · refine Or.inr (pyStrLtB_of_take q P2 hqeq ?_)
        rw [← hmatch, List.take_take, Nat.min_eq_left hqlen, hqtake]
    unfold DXCC.lookup
    simp only [hfind]
  · intro d call hkeys hnomatch
    unfold DXCC.lookup
    have hnone :
        ((candList (pyUpper call) d.maxLen).insertionSort pyGeP).find?
          (fun p => (assocFind d.dxmap p).isSome) = none := by
      rw [List.find?_eq_none]
      intro q hq hpred
      have hqcand : q ∈ candList (pyUpper call) d.maxLen :=
        (List.mem_insertionSort pyGeP).mp hq
      obtain ⟨c, _, _, hqc⟩ := mem_candList_iff.mp hqcand
      have hqtake : (pyUpper call).take q.length = q := by
        rw [hqc]; exact take_length_take _ _
      obtain ⟨rq, hrq⟩ := assocFind_isSome_mem (by simpa using hpred)
      exact hnomatch (q, rq) hrq hqtake
    simp only [hnone]

/-- A small concrete prefix record for evaluating the lookup theorems. -/
def mkDemoRec (p : List Char) (z : Int) : DXCCRecord :=
  ⟨p, p, p, p, z, z, 0, 0, 0⟩

/-- A concrete two-entry prefix table: "A" and its extension "AB". -/
def demoDXCC : DXCC :=
  ⟨[("A".toList, mkDemoRec "A".toList 1),
    ("AB".toList, mkDemoRec "AB".toList 2)], 2⟩

/-- Witness for C5: on the concrete table {"A", "AB"} and callsign "abx",
lookup returns the record of the longer matching table entry "AB"; on
callsign "z", no prefix matches and lookup reports not-found. -/
theorem dxcc_lookup_longest_match_witness :
    demoDXCC.lookup "abx".toList = some (mkDemoRec "AB".toList 2) ∧
    demoDXCC.lookup "z".toList = none := by
  constructor
  · exact (dxcc_lookup_longest_match.1 demoDXCC "abx".toList
      "A".toList "AB".toList (by decide) (by decide) (by decide) (by decide)
      (by decide) (by decide) (by decide)).trans (by decide)
  · exact dxcc_lookup_longest_match.2 demoDXCC "z".toList
      (by decide) (by decide)

/-
  Band derivation: `get_band` (dxcluster.py lines 209-238).
-/

/-- The `_bands` range table of `get_band`, in source order
(most popular band first).  Each entry is (min kHz, max kHz, band). -/
def bandsTable : List (ℚ × ℚ × ℚ) :=
  [ (14000, 14350, 20),
    (7000, 7300, 40),
    (10100, 10150, 30),
    (3500, 4000, 80),
    (21000, 21450, 15),
    (18068, 18168, 17),
    (28000, 29700, 10),
    (50000, 54000, 6),
    (24890, 24990, 12),
    (1800, 2000, 160),
    (144000, 148000, 2),
    (69900, 70500, 4),
    (5258, 5450, 60),
    (420000, 450000, 7/10),
    (219000, 225000, 5/4),
    (1240000, 1300000, 23/100),
    (10000000, 10500000, 1/50),
    (472, 479, 630) ]

/-- The scan loop of `get_band`: first range containing the frequency wins,
otherwise 0 (with a logged warning). -/
def findBand : List (ℚ × ℚ × ℚ) → ℚ → ℚ
  | [], _ => 0
  | (lo, hi, b) :: rest, f => if lo ≤ f ∧ f ≤ hi then b else findBand rest f

/-- Function `get_band` (dxcluster.py lines 209-238). -/
def get_band (freq : ℚ) : ℚ := findBand bandsTable freq

theorem findBand_mem_or_zero (l : List (ℚ × ℚ × ℚ)) (f : ℚ) :
    findBand l f = 0 ∨ findBand l f ∈ l.map (fun t => t.2.2) := by
  induction l with
  | nil => exact Or.inl rfl
  | cons t rest ih =>
    obtain ⟨lo, hi, b⟩ := t
    by_cases h : lo ≤ f ∧ f ≤ hi
    · right
      simp [findBand, h]
    · rcases ih with h' | h'
      · exact Or.inl (by simpa [findBand, h] using h')
      · right
        simp only [findBand, if_neg h]
        exact List.mem_cons_of_mem _ h'

/-- C6 counterexample: at the valid positive frequency 430000 kHz (the 70 cm
UHF range) `get_band` returns 7/10, which is not an integer, refuting the
claim that the result is always a defined integer. -/
theorem get_band_70cm_not_integer :
    get_band 430000 = 7/10 ∧ ¬ ∃ n : ℤ, get_band 430000 = (n : ℚ) := by
  have h : get_band 430000 = 7/10 := by
    norm_num [get_band, bandsTable, findBand]
  refine ⟨h, ?_⟩
  rintro ⟨n, hn⟩
  rw [h] at hn
  have hd := congrArg Rat.den hn
  rw [Rat.den_intCast] at hd
  norm_num at hd

/-- C6 amended: for every positive frequency `get_band` is total — it returns
0 (no band, logged warning) or one of the band values of the `_bands` table;
those include the fractional wavelengths 0.70, 1.25, 0.23 and 0.02 m, so the
result is a defined number but not always an integer. -/
theorem get_band_total (freq : ℚ) (hpos : 0 < freq) :
    get_band freq = 0 ∨ get_band freq ∈ bandsTable.map (fun t => t.2.2) :=
  findBand_mem_or_zero bandsTable freq

/-- Witness for the amended C6 at frequency 430000 kHz. -/
theorem get_band_total_witness :
    (0 : ℚ) < 430000 ∧
    (get_band 430000 = 0 ∨
      get_band 430000 ∈ bandsTable.map (fun t => t.2.2)) :=
  ⟨by norm_num, get_band_total 430000 (by norm_num)⟩

/-
  LineParser: `parse_spot` (dxcluster.py lines 293-358) and its helpers.
-/

/-- Separator class of `parse_spot.splitter`, the regex `[:\s]+`. -/
def isSepColon (c : Char) : Bool := c == ':' || isPySpace c

/-- Worker of `reSplit`: `some acc` while building a token (in reverse),
`none` while inside a separator run whose token has been emitted. -/
def reSplitAux (sep : Char → Bool) : List Char → Option (List Char) → List (List Char)
  | [], some acc => [acc.reverse]
  | [], none => [[]]
  | c :: cs, some acc =>
    if sep c then acc.reverse :: reSplitAux sep cs none
    else reSplitAux sep cs (some (c :: acc))
  | c :: cs, none =>
    if sep c then reSplitAux sep cs none
    else reSplitAux sep cs (some [c])

/-- Python `re.split` with a one-character-class-run pattern such as `[:\s]+`:
split at maximal separator runs, with an empty leading (resp. trailing) token
when the string starts (resp. ends) with a separator. -/
def reSplit (sep : Char → Bool) (s : List Char) : List (List Char) :=
  reSplitAux sep s (some [])

/-- Python `float()` on the plain decimal forms used by the spot protocol:
optional sign, integer digits, optional fraction.  `none` models the raised
`ValueError` (other accepted `float()` spellings such as exponents or
`inf`/`nan` do not occur in frequency fields and are also mapped to `none`). -/
def digitsToNat (ds : List Char) : Nat :=
  ds.foldl (fun n c => 10 * n + (c.toNat - 48)) 0

def pyFloat (s : List Char) : Option ℚ :=
  let (sgn, s1) : ℚ × List Char :=
    match s with
    | '+' :: r => (1, r)
    | '-' :: r => (-1, r)
    | r => (1, r)
  let ip := s1.takeWhile Char.isDigit
  let r1 := s1.dropWhile Char.isDigit
  match r1 with
  | [] => if ip.isEmpty then none else some (sgn * (digitsToNat ip : ℚ))
  | '.' :: r2 =>
    let fp := r2.takeWhile Char.isDigit
    let r3 := r2.dropWhile Char.isDigit
    if r3.isEmpty then
      if ip.isEmpty && fp.isEmpty then none
      else some (sgn * ((digitsToNat ip : ℚ) + (digitsToNat fp : ℚ) / 10 ^ fp.length))
    else none
  | _ => none

/-- Python `tok.split(sep, 1)`: at most one split, at the first occurrence. -/
def pySplitOnce (tok : List Char) (sep : Char) : List (List Char) :=
  match tok.dropWhile (fun c => c != sep) with
  | [] => [tok]
  | _ :: rest => [tok.takeWhile (fun c => c != sep), rest]

/-- The leading mode alternation of `parse_spot.msgparse`, the regex atom
`FT[48]|CW|RTTY`; returns the matched mode and the rest of the message. -/
def msgMode : List Char → Option (List Char × List Char)
  | 'F' :: 'T' :: '4' :: r => some (['F', 'T', '4'], r)
  | 'F' :: 'T' :: '8' :: r => some (['F', 'T', '8'], r)
  | 'C' :: 'W' :: r => some (['C', 'W'], r)
  | 'R' :: 'T' :: 'T' :: 'Y' :: r => some (['R', 'T', 'T', 'Y'], r)
  | _ => none

/-- The message pattern `^(?P<mode>FT[48]|CW|RTTY)\s+(?P<db>[+-]?\ ?\d+).*`
of `parse_spot` (line 305): mode atom, at least one whitespace, then the
signal group of optional sign, optional single space and digits (the
surrounding `.*` places no further constraint).  Returns the `mode` and `db`
groups on a match. -/
def msgparse (s : List Char) : Option (List Char × List Char) :=
  match msgMode s with
  | none => none
  | some (mode, r) =>
    let ws := r.takeWhile isPySpace
    let r0 := r.dropWhile isPySpace
    if ws.isEmpty then none
    else
      let (sgn, r1) : List Char × List Char :=
        match r0 with
        | '+' :: t => (['+'], t)
        | '-' :: t => (['-'], t)
        | t => ([], t)
      let (sp, r2) : List Char × List Char :=
        match r1 with
        | ' ' :: t => ([' '], t)
        | t => ([], t)
      let ds := r2.takeWhile Char.isDigit
      if ds.isEmpty then none else some (mode, sgn ++ sp ++ ds)

/-- The DE/DX entity-resolution loop of `parse_spot` (lines 321-339): iterate
over `token.split('/', 1)`, first successful lookup wins; `none` models the
for-else "Not found" warning-and-reject path. -/
def resolveCall (lookupF : List Char → Option DXCCRecord) (tok : List Char) :
    Option DXCCRecord :=
  (pySplitOnce tok '/').foldl (fun acc part => acc <|> lookupF part) none

/-- The `Record` namedtuple (dxcluster.py lines 201-206) produced by
`parse_spot`; `DX_TIME` carries the `datetime.utcnow()` value injected as a
parameter. -/
structure SpotRecord where
  DE : List Char
  FREQUENCY : ℚ
  DX : List Char
  MESSAGE : List Char
  DE_CONT : List Char
  TO_CONT : List Char
  DE_ITUZONE : Int
  TO_ITUZONE : Int
  DE_CQZONE : Int
  TO_CQZONE : Int
  MODE : Option (List Char)
  SIGNAL : Option (List Char)
  BAND : ℚ
  DX_TIME : Nat
deriving DecidableEq, Repr

/-- Outcome of one `parse_spot` call: a record, the logged-and-skipped
`return None` paths, or an uncaught exception (`IndexError` when the split
line has fewer than three payload tokens — only `ValueError` is caught). -/
inductive ParseOutcome
  | spot (r : SpotRecord)
  | rejected
  | crash
deriving DecidableEq, Repr

/-- Function `parse_spot` (dxcluster.py lines 293-358).  The entity resolver
(`parse_spot.dxcc.lookup` in the source) is injected as `dxcc`, the
`datetime.utcnow()` capture as `now`; the byte line arrives already decoded
(`decode('UTF-8', 'replace')` is total). -/
def parse_spot (dxcc : List Char → Option DXCCRecord) (now : Nat)
    (line0 : List Char) : ParseOutcome :=
  let line := pyRstrip line0
  let elem := (reSplit isSepColon line).drop 2
  match elem.get? 0, elem.get? 1, elem.get? 2 with
  | some e0, some e1, some e2 =>
    (match pyFloat e1 with
    | none => .rejected
    | some freq =>
      let de := pyStripChars (fun c => c == '-' || c == '#') e0
      let msg := List.intercalate [' '] ((elem.drop 3).take (elem.length - 1 - 3))
      match resolveCall dxcc de with
      | none => .rejected
      | some callDe =>
        match resolveCall dxcc e2 with
        | none => .rejected
        | some callTo =>
          let ms := msgparse msg
          .spot {
            DE := de, FREQUENCY := freq, DX := e2, MESSAGE := msg,
            DE_CONT := callDe.continent, TO_CONT := callTo.continent,
            DE_ITUZONE := callDe.ituzone, TO_ITUZONE := callTo.ituzone,
            DE_CQZONE := callDe.cqzone, TO_CQZONE := callTo.cqzone,
            MODE := ms.map Prod.fst, SIGNAL := ms.map Prod.snd,
            BAND := get_band freq, DX_TIME := now })
  | _, _, _ => .crash

/-- The literal canonical spot line of the spec's round-trip property. -/
def canonLine : List Char := "DX de W1AW: 14025.0 K1ABC FT8 +05dB 1234Z".toList

/-- The frequency token of the canonical line parses to 14025 kHz. -/
theorem pyFloat_canon : pyFloat ("14025.0".toList) = some 14025 := by
  have h : pyFloat ("14025.0".toList) =
      some ((1 : ℚ) * (((14025 : Nat) : ℚ) + ((0 : Nat) : ℚ) / 10 ^ (1 : Nat))) := rfl
  rw [h]
  norm_num

/-- Evaluation of `parse_spot` on the canonical line up to the two injected
entity lookups (everything else in the line is concrete). -/
theorem parse_canon_step (dxcc : List Char → Option DXCCRecord) (now : Nat) :
    parse_spot dxcc now canonLine =
      (match resolveCall dxcc ("W1AW".toList) with
       | none => ParseOutcome.rejected
       | some callDe =>
         match resolveCall dxcc ("K1ABC".toList) with
         | none => ParseOutcome.rejected
         | some callTo =>
           ParseOutcome.spot {
             DE := "W1AW".toList, FREQUENCY := 14025, DX := "K1ABC".toList,
             MESSAGE := "FT8 +05dB".toList,
             DE_CONT := callDe.continent, TO_CONT := callTo.continent,
             DE_ITUZONE := callDe.ituzone, TO_ITUZONE := callTo.ituzone,
             DE_CQZONE := callDe.cqzone, TO_CQZONE := callTo.cqzone,
             MODE := some "FT8".toList, SIGNAL := some "+05".toList,
             BAND := 20, DX_TIME := now }) := by
  have h0 : parse_spot dxcc now canonLine =
      (match pyFloat ("14025.0".toList) with
       | none => ParseOutcome.rejected
       | some freq =>
         match resolveCall dxcc ("W1AW".toList) with
         | none => ParseOutcome.rejected
         | some callDe =>
           match resolveCall dxcc ("K1ABC".toList) with
           | none => ParseOutcome.rejected
           | some callTo =>
             ParseOutcome.spot {
               DE := "W1AW".toList, FREQUENCY := freq, DX := "K1ABC".toList,
               MESSAGE := "FT8 +05dB".toList,
               DE_CONT := callDe.continent, TO_CONT := callTo.continent,
               DE_ITUZONE := callDe.ituzone, TO_ITUZONE := callTo.ituzone,
               DE_CQZONE := callDe.cqzone, TO_CQZONE := callTo.cqzone,
               MODE := some "FT8".toList, SIGNAL := some "+05".toList,
               BAND := get_band freq, DX_TIME := now }) := rfl
  rw [h0, pyFloat_canon]
  exact rfl

/-- C9: parsing the literal line `DX de W1AW: 14025.0 K1ABC FT8 +05dB 1234Z`
yields a SpotRecord with DE = W1AW, frequency = 14025.0, DX = K1ABC,
mode = FT8, signal = +05 and band = 20, for any entity resolver that resolves
the two callsigns (as the real prefix table does via its "W" and "K"
entries). -/
theorem parse_spot_canonical (dxcc : List Char → Option DXCCRecord)
    (now : Nat) (rde rdx : DXCCRecord)
    (h1 : dxcc "W1AW".toList = some rde)
    (h2 : dxcc "K1ABC".toList = some rdx) :
    parse_spot dxcc now canonLine = .spot {
      DE := "W1AW".toList, FREQUENCY := 14025, DX := "K1ABC".toList,
      MESSAGE := "FT8 +05dB".toList,
      DE_CONT := rde.continent, TO_CONT := rdx.continent,
      DE_ITUZONE := rde.ituzone, TO_ITUZONE := rdx.ituzone,
      DE_CQZONE := rde.cqzone, TO_CQZONE := rdx.cqzone,
      MODE := some "FT8".toList, SIGNAL := some "+05".toList,
      BAND := 20, DX_TIME := now } := by
  have hr1 : resolveCall dxcc ("W1AW".toList) = dxcc ("W1AW".toList) := rfl
  have hr2 : resolveCall dxcc ("K1ABC".toList) = dxcc ("K1ABC".toList) := rfl
  rw [parse_canon_step, hr1, h1, hr2, h2]

/-- Concrete resolver table with the "W" and "K" country prefixes. -/
def demoParseDXCC : DXCC :=
  ⟨[("W".toList, mkDemoRec "W".toList 4), ("K".toList, mkDemoRec "K".toList 5)], 1⟩

/-- Witness for C9 with the concrete two-entry resolver. -/
theorem parse_spot_canonical_witness :
    demoParseDXCC.lookup "W1AW".toList = some (mkDemoRec "W".toList 4) ∧
    parse_spot demoParseDXCC.lookup 0 canonLine = .spot {
      DE := "W1AW".toList, FREQUENCY := 14025, DX := "K1ABC".toList,
      MESSAGE := "FT8 +05dB".toList,
      DE_CONT := "W".toList, TO_CONT := "K".toList,
      DE_ITUZONE := 4, TO_ITUZONE := 5,
      DE_CQZONE := 4, TO_CQZONE := 5,
      MODE := some "FT8".toList, SIGNAL := some "+05".toList,
      BAND := 20, DX_TIME := 0 } :=
  ⟨by decide,
   parse_spot_canonical demoParseDXCC.lookup 0
     (mkDemoRec "W".toList 4) (mkDemoRec "K".toList 5) (by decide) (by decide)⟩

theorem takeWhile_append_all {p : Char → Bool} :
    ∀ (pre rest : List Char), (∀ x ∈ pre, p x = true) →
    (pre ++ rest).takeWhile p = pre ++ rest.takeWhile p
  | [], rest, _ => rfl
  | c :: cs, rest, h => by
    have hc : p c = true := h c (List.mem_cons_self _ _)
    simp only [List.cons_append, List.takeWhile_cons, hc, if_true]
    rw [takeWhile_append_all cs rest (fun x hx => h x (List.mem_cons_of_mem _ hx))]

theorem dropWhile_append_all {p : Char → Bool} :
    ∀ (pre rest : List Char), (∀ x ∈ pre, p x = true) →
    (pre ++ rest).dropWhile p = rest.dropWhile p
  | [], rest, _ => rfl
  | c :: cs, rest, h => by
    have hc : p c = true := h c (List.mem_cons_self _ _)
    simp only [List.cons_append, List.dropWhile_cons, hc, if_true]
    exact dropWhile_append_all cs rest (fun x hx => h x (List.mem_cons_of_mem _ hx))

theorem dropWhile_all {p : Char → Bool} :
    ∀ (l : List Char), (∀ x ∈ l, p x = true) → l.dropWhile p = []
  | [], _ => rfl
  | c :: cs, h => by
    have hc : p c = true := h c (List.mem_cons_self _ _)
    simp only [List.dropWhile_cons, hc, if_true]
    exact dropWhile_all cs (fun x hx => h x (List.mem_cons_of_mem _ hx))

theorem pySplitOnce_no_sep (tok : List Char) (sep : Char)
    (h : tok.all (fun c => c != sep) = true) :
    pySplitOnce tok sep = [tok] := by
  unfold pySplitOnce
  rw [dropWhile_all tok (List.all_eq_true.mp h)]

theorem pySplitOnce_sep (pre post : List Char) (sep : Char)
    (h : ∀ x ∈ pre, (x != sep) = true) :
    pySplitOnce (pre ++ sep :: post) sep = [pre, post] := by
  unfold pySplitOnce
  rw [dropWhile_append_all pre (sep :: post) h,
      takeWhile_append_all pre (sep :: post) h]
  simp [List.dropWhile, List.takeWhile]

/-- Modelled from the spec (comparison definition for the entity-resolution
order of C7, not present in the code): resolution "trying, in order, the full
token and then the portion before any '/'". -/
def specResolveCall (f : List Char → Option DXCCRecord) (tok : List Char) :
    Option DXCCRecord :=
  f tok <|> f (tok.takeWhile (fun c => c != '/'))

/-- Concrete one-entry prefix table holding only "CD". -/
def slashDXCC : DXCC := ⟨[("CD".toList, mkDemoRec "CD".toList 3)], 2⟩

/-- C7 counterexample: on the token "AB/CD" with a prefix table containing
only "CD", the code's resolution (`token.split('/', 1)`: portion before the
slash, then portion after it) succeeds via "CD", while the claimed order
(full token, then portion before the slash) resolves nothing — so the claimed
lookup order is not the implemented one. -/
theorem resolveCall_order_cex :
    resolveCall slashDXCC.lookup "AB/CD".toList =
      some (mkDemoRec "CD".toList 3) ∧
    specResolveCall slashDXCC.lookup "AB/CD".toList = none := by
  constructor
  · decide
  · decide

/-- C7 amended: for each DE/DX token, entity resolution splits the token at
its first "/" and tries, in order, the portion before the slash and then the
portion after it (the full slashed token itself is never looked up); the
first successful lookup wins; and a canonical spot line whose DE or DX token
fails to resolve is rejected (parse_spot returns the logged None), not
fatal. -/
theorem resolveCall_order :
    (∀ (f : List Char → Option DXCCRecord) (tok : List Char),
      tok.all (fun c => c != '/') = true →
      resolveCall f tok = f tok) ∧
    (∀ (f : List Char → Option DXCCRecord) (pre post : List Char),
      pre.all (fun c => c != '/') = true →
      resolveCall f (pre ++ '/' :: post) = (f pre <|> f post)) ∧
    (∀ (dxcc : List Char → Option DXCCRecord) (now : Nat),
      resolveCall dxcc ("W1AW".toList) = none →
      parse_spot dxcc now canonLine = .rejected) ∧
    (∀ (dxcc : List Char → Option DXCCRecord) (now : Nat) (r : DXCCRecord),
      resolveCall dxcc ("W1AW".toList) = some r →
      resolveCall dxcc ("K1ABC".toList) = none →
      parse_spot dxcc now canonLine = .rejected) := by
  refine ⟨?_, ?_, ?_, ?_⟩
  · intro f tok h
    unfold resolveCall
    rw [pySplitOnce_no_sep tok '/' h]
    simp [Option.none_orElse]
  · intro f pre post h
    unfold resolveCall
    rw [pySplitOnce_sep pre post '/' (List.all_eq_true.mp h)]
    simp [Option.none_orElse]
  · intro dxcc now h
    rw [parse_canon_step, h]
  · intro dxcc now r h1 h2
    rw [parse_canon_step, h1, h2]

/-- Witness for the amended C7 at concrete tokens and resolvers. -/
theorem resolveCall_order_witness :
    resolveCall slashDXCC.lookup "CD".toList = slashDXCC.lookup "CD".toList ∧
    resolveCall slashDXCC.lookup ("AB".toList ++ '/' :: "CD".toList) =
      (slashDXCC.lookup "AB".toList <|> slashDXCC.lookup "CD".toList) ∧
    parse_spot (fun _ => none) 0 canonLine = .rejected ∧
    parse_spot
      (fun t => if t = "W1AW".toList then some (mkDemoRec "W".toList 4) else none)
      0 canonLine = .rejected :=
  ⟨resolveCall_order.1 _ _ (by decide),
   resolveCall_order.2.1 _ _ _ (by decide),
   resolveCall_order.2.2.1 _ 0 (by decide),
   resolveCall_order.2.2.2 _ 0 (mkDemoRec "W".toList 4) (by decide) (by decide)⟩

/-
  WriteQueue: `queue.Queue(config.get('queue_len', 0))` (dxcluster.py line
  442) written to by `read_stream` via `queue.put(...)` (lines 390, 400).
-/

/-- State of the standard-library `queue.Queue`: the configured `maxsize`
((`queue_len`, default 0 = unbounded) and the stored items. -/
structure PyQueue (α : Type) where
  maxsize : Int
  items : List α
deriving DecidableEq, Repr

/-- CPython `Queue.full()`: only a positive `maxsize` bounds the queue. -/
def PyQueue.isFull {α : Type} (q : PyQueue α) : Bool :=
  0 < q.maxsize && q.maxsize ≤ (q.items.length : Int)

/-- Outcome of one `Queue.put(item)` call.  `dropped` never occurs in the
code; it exists to state the spec's claimed drop-on-full behaviour. -/
inductive PutOutcome (α : Type)
  | enqueued (q : PyQueue α)
  | blocked
  | dropped
deriving DecidableEq, Repr

/-- CPython `Queue.put(item)` with the default `block=True, timeout=None`,
as called by `read_stream`: append when a slot is free, otherwise wait
(block the calling thread) until one is. -/
def PyQueue.put {α : Type} (q : PyQueue α) (x : α) : PutOutcome α :=
  if q.isFull then .blocked
  else .enqueued ⟨q.maxsize, q.items ++ [x]⟩

/-- Modelled from the spec (comparison definition for C2, not present in the
code): an enqueue that "on a full queue drops the item and logs a warning
rather than blocking". -/
def specPut {α : Type} (q : PyQueue α) (x : α) : PutOutcome α :=
  if q.isFull then .dropped
  else .enqueued ⟨q.maxsize, q.items ++ [x]⟩

/-- C2 counterexample: on a full queue of capacity 1 the code's enqueue
blocks the caller; it does not return immediately dropping the item as
claimed. -/
theorem queue_put_blocks_cex :
    PyQueue.put ⟨1, [0]⟩ (1 : Nat) = .blocked ∧
    specPut ⟨1, [0]⟩ (1 : Nat) = .dropped ∧
    PutOutcome.blocked ≠ (PutOutcome.dropped : PutOutcome Nat) := by
  refine ⟨by decide, by decide, by decide⟩

/-- C2 amended: the queue is bounded by the configured capacity when that
capacity is positive (the default `queue_len` 0 leaves it unbounded), but
enqueueing into a full queue blocks the network-reading caller until a slot
frees; a queued item is never dropped at enqueue time. -/
theorem queue_put_spec {α : Type} (q : PyQueue α) (x : α) :
    (q.isFull = true → q.put x = .blocked) ∧
    (q.isFull = false →
      q.put x = .enqueued ⟨q.maxsize, q.items ++ [x]⟩ ∧
      (0 < q.maxsize → (q.items.length : Int) + 1 ≤ q.maxsize)) := by
  constructor
  · intro h
    simp [PyQueue.put, h]
  · intro h
    refine ⟨by simp [PyQueue.put, h], ?_⟩
    intro hpos
    unfold PyQueue.isFull at h
    simp only [Bool.and_eq_false_iff, decide_eq_false_iff_not] at h
    rcases h with h | h
    · omega
    · omega

/-- Witness for the amended C2 on a concrete full and a concrete non-full
queue. -/
theorem queue_put_spec_witness :
    (PyQueue.put ⟨1, [0]⟩ (1 : Nat) = .blocked) ∧
    (PyQueue.put ⟨2, [0]⟩ (1 : Nat) = .enqueued ⟨2, [0, 1]⟩ ∧
      (0 < (2 : Int) → (([0] : List Nat).length : Int) + 1 ≤ 2)) :=
  ⟨(queue_put_spec ⟨1, [0]⟩ 1).1 (by decide),
   (queue_put_spec ⟨2, [0]⟩ 1).2 (by decide)⟩

/-
  PersistenceWorker: `DBInsert.run` (dxcluster.py lines 104-126).
-/

/-- One `cursor.execute` call issued by the worker: the statement template
and the parameter rows written by that call (sqlite's `execute` binds
exactly one row; only `executemany` would write several). -/
structure ExecCall (α : Type) where
  stmt : List Char
  rows : List α
deriving DecidableEq, Repr

/-- The `cursor.execute` calls `DBInsert.run` issues for a sequence of
dequeued writes (lines 108-126): one loop iteration per `queue.get()`, each
iteration executing `curs.execute(*request)` with that single request — one
single-row write per queued item, with no draining and no grouping. -/
def dbinsertExecCalls {α : Type} (reqs : List (List Char × α)) :
    List (ExecCall α) :=
  reqs.map (fun r => ⟨r.1, [r.2]⟩)

/-- Modelled from the spec (comparison definition for C3, not present in the
code): drain all queued writes, group them by statement template and issue
one batched multi-row write per template group. -/
def specBatchedExecCalls {α : Type} (reqs : List (List Char × α)) :
    List (ExecCall α) :=
  ((reqs.map Prod.fst).dedup).map
    (fun s => ⟨s, (reqs.filter (fun r => decide (r.1 = s))).map Prod.snd⟩)

/-- The dxspot insert statement template enqueued by `read_stream`. -/
def dxspotSQL : List Char :=
  "INSERT INTO dxspot VALUES (?,?,?,?,?,?,?,?,?,?,?,?,?,?)".toList

/-- Two queued writes sharing the dxspot statement template. -/
def demoWrites : List (List Char × Nat) := [(dxspotSQL, 0), (dxspotSQL, 1)]

/-- C3 counterexample: two queued writes sharing one statement template are
persisted by two separate single-row executes, not by the claimed single
batched two-row write. -/
theorem dbinsert_no_batching_cex :
    dbinsertExecCalls demoWrites = [⟨dxspotSQL, [0]⟩, ⟨dxspotSQL, [1]⟩] ∧
    specBatchedExecCalls demoWrites = [⟨dxspotSQL, [0, 1]⟩] ∧
    dbinsertExecCalls demoWrites ≠ specBatchedExecCalls demoWrites := by
  refine ⟨by decide, by decide, by decide⟩

/-- C3 amended: each time the PersistenceWorker wakes it dequeues a single
write and persists it with its own single-row execute; there is no draining
and no per-template batching, so N queued writes sharing one statement
template are persisted by N separate single-row executes producing N rows in
total. -/
theorem dbinsert_single_row_writes {α : Type} (reqs : List (List Char × α)) :
    (dbinsertExecCalls reqs).length = reqs.length ∧
    (dbinsertExecCalls reqs).all (fun c => c.rows.length == 1) = true ∧
    ((dbinsertExecCalls reqs).map (fun c => c.rows.length)).sum = reqs.length := by
  refine ⟨by simp [dbinsertExecCalls], ?_, ?_⟩
  · unfold dbinsertExecCalls
    induction reqs with
    | nil => rfl
    | cons r rest ih =>
      rw [List.map_cons, List.all_cons, ih]
      rfl
  · unfold dbinsertExecCalls
    induction reqs with
    | nil => rfl
    | cons r rest ih =>
      rw [List.map_cons, List.map_cons, List.sum_cons, ih]
      show 1 + rest.length = rest.length + 1
      omega

/-
  The inner retry loop of `DBInsert.run` (lines 117-126): `while True:` around
  `curs.execute(*request)`, catching `sqlite3.OperationalError`, logging,
  sleeping one second and retrying; the loop exits only through the
  `else: break` after a successful execute, with `request` never reassigned.
-/

/-- Observable trace of the retry loop over a window of `fuel` attempts.
`ok n` tells whether the n-th execute attempt raises no OperationalError.
Returns the executed request per attempt and whether the loop has exited
(through the `else: break`) inside the window. -/
def dbRetryTrace {α : Type} (ok : Nat → Bool) (req : α) :
    Nat → Nat → List α × Bool
  | 0, _ => ([], false)
  | fuel + 1, start =>
    if ok start then ([req], true)
    else
      let t := dbRetryTrace ok req fuel (start + 1)
      (req :: t.1, t.2)

theorem dbRetryTrace_succeeds {α : Type} (ok : Nat → Bool) (req : α) :
    ∀ (fuel start k : Nat),
    (∀ i, i < k → ok (start + i) = false) → ok (start + k) = true →
    k < fuel →
    dbRetryTrace ok req fuel start = (List.replicate (k + 1) req, true)
  | 0, _, _, _, _, hk => by omega
  | fuel + 1, start, 0, _, hk, _ => by
    simp only [Nat.add_zero] at hk
    simp [dbRetryTrace, hk]
  | fuel + 1, start, k + 1, hfail, hk, hfuel => by
    have h0 : ok start = false := by
      have := hfail 0 (by omega)
      simpa using this
    have ih := dbRetryTrace_succeeds ok req fuel (start + 1) k
      (fun i hi => by
        have := hfail (i + 1) (by omega)
        simpa [Nat.add_assoc, Nat.add_comm, Nat.add_left_comm] using this)
      (by
        have : start + 1 + k = start + (k + 1) := by omega
        rw [this]; exact hk)
      (by omega)
    simp [dbRetryTrace, h0, ih, List.replicate]

theorem dbRetryTrace_all_fail {α : Type} (ok : Nat → Bool) (req : α) :
    ∀ (fuel start : Nat),
    (∀ i, i < fuel → ok (start + i) = false) →
    dbRetryTrace ok req fuel start = (List.replicate fuel req, false)
  | 0, _, _ => rfl
  | fuel + 1, start, hfail => by
    have h0 : ok start = false := by
      have := hfail 0 (by omega)
      simpa using this
    have ih := dbRetryTrace_all_fail ok req fuel (start + 1)
      (fun i hi => by
        have := hfail (i + 1) (by omega)
        simpa [Nat.add_assoc, Nat.add_comm, Nat.add_left_comm] using this)
    simp [dbRetryTrace, h0, ih, List.replicate]

/-- C4: when the first k execute attempts of a dequeued write fail with the
busy/locked OperationalError and attempt k succeeds, the worker executes that
same request exactly k+1 times (one per attempt, after the fixed one-second
pause each) and only then leaves the retry loop; and when every attempt in
the observation window fails, the loop is still holding and retrying the same
request — a dequeued write is never discarded because of lock contention. -/
theorem dbinsert_retry_until_success {α : Type} (ok : Nat → Bool) (req : α)
    (k fuel : Nat) :
    ((∀ i, i < k → ok i = false) → ok k = true → k < fuel →
      dbRetryTrace ok req fuel 0 = (List.replicate (k + 1) req, true)) ∧
    ((∀ i, i < fuel → ok i = false) →
      dbRetryTrace ok req fuel 0 = (List.replicate fuel req, false)) := by
  constructor
  · intro hfail hk hfuel
    exact dbRetryTrace_succeeds ok req fuel 0 k
      (fun i hi => by simpa using hfail i hi) (by simpa using hk) hfuel
  · intro hfail
    exact dbRetryTrace_all_fail ok req fuel 0
      (fun i hi => by simpa using hfail i hi)

/-- Witness for C4: with the first two attempts locked and the third
succeeding, the request is executed three times and the loop exits; with
every attempt locked it is executed once per attempt and the loop is still
running. -/
theorem dbinsert_retry_until_success_witness :
    dbRetryTrace (fun n => decide (2 ≤ n)) (dxspotSQL, (0 : Nat)) 5 0 =
      (List.replicate 3 (dxspotSQL, (0 : Nat)), true) ∧
    dbRetryTrace (fun _ => false) (dxspotSQL, (0 : Nat)) 5 0 =
      (List.replicate 5 (dxspotSQL, (0 : Nat)), false) :=
  ⟨(dbinsert_retry_until_success (fun n => decide (2 ≤ n)) (dxspotSQL, 0) 2 5).1
      (fun i hi => decide_eq_false (by omega)) (by decide) (by decide),
   (dbinsert_retry_until_success (fun _ => false) (dxspotSQL, 0) 2 5).2
      (fun _ _ => rfl)⟩

/-
  SessionNegotiator: `login`, `cc_options`, `spider_options`
  (dxcluster.py lines 241-290).
-/

/-- One `telnet.expect` event during the banner-probe loop of `login`:
a matched pattern index (0 = "Running CC Cluster", 1 = "AR-Cluster",
2 = "enter your call", 3 = "enter your amateur radio callsign", -1 = expect
timeout), or a raised `socket.timeout` / `EOFError`. -/
inductive ProbeEv
  | m (code : Int)
  | sockTimeout
  | eof
deriving DecidableEq, Repr

/-- The two filter-command procedures `login` can select. -/
inductive OptionsFn
  | ccOpts
  | spiderOpts
deriving DecidableEq, Repr

/-- The command strings sent by `cc_options` (lines 255-263). -/
def ccCommands : List (List Char) :=
  ["SET/WWV\n".toList, "SET/FT4\n".toList, "SET/SKIMMER\n".toList,
   "SET/FT8\n".toList]

/-- The command strings sent by `spider_options` (lines 241-252). -/
def spiderCommands (email : List Char) : List (List Char) :=
  ["set/dx/filter\n".toList, "set/wwv/output on\n".toList,
   "set/station/email ".toList ++ email ++ ['\n']]

/-- The command sequence belonging to a selected option procedure. -/
def commandsOf (o : OptionsFn) (email : List Char) : List (List Char) :=
  match o with
  | .ccOpts => ccCommands
  | .spiderOpts => spiderCommands email

/-- The banner-probe loop of `login` (lines 271-283): up to five
`telnet.expect` rounds; pattern 0 assigns `set_options = cc_options`,
pattern 1 assigns `set_options = spider_options`, any other match result
(patterns 2/3 or timeout -1, and a silent connection once the scripted
events run out) breaks out of the loop; a raised `socket.timeout` or
`EOFError` becomes `OSError` (`.error`). -/
def probeDialect : List ProbeEv → Nat → Option OptionsFn →
    Except Unit (Option OptionsFn)
  | _, 0, acc => .ok acc
  | [], _ + 1, acc => .ok acc
  | ev :: evs, fuel + 1, acc =>
    match ev with
    | .m 0 => probeDialect evs fuel (some .ccOpts)
    | .m 1 => probeDialect evs fuel (some .spiderOpts)
    | .m _ => .ok acc
    | .sockTimeout => .error ()
    | .eof => .error ()

/-- Outcome of one `login` call (lines 266-290). -/
inductive LoginOutcome
  | ok (opts : OptionsFn)
  | unboundLocal
  | attrError
  | osError
deriving DecidableEq, Repr

/-- Function `login` (lines 266-290): run the banner probe, send the
callsign, wait up to 15 s for the `"<call> de <server>"` acknowledgement
(`ackOk` says whether it arrived), and call the selected `set_options`.
When the acknowledgement never matches — whether the server answered with a
rejection text or with nothing — `telnet.expect` returns `match = None` and
`match.group()` raises `AttributeError` (line 288); reaching
`set_options(...)` (line 290) with no dialect assigned raises
`UnboundLocalError`. -/
def login (banner : List ProbeEv) (ackOk : Bool) : LoginOutcome :=
  match probeDialect banner 5 none with
  | .error _ => .osError
  | .ok opts =>
    if ackOk then
      match opts with
      | some o => .ok o
      | none => .unboundLocal
    else .attrError

/-- C8 counterexample: an AR-Cluster banner makes `login` select
`spider_options`, whose command sequence is the DX-Spider one — not the
AR/CC-style `SET/WWV`… sequence the claim assigns to AR-Cluster banners. -/
theorem login_dialect_cex :
    login [ProbeEv.m 1, ProbeEv.m (-1)] true = .ok .spiderOpts ∧
    commandsOf .spiderOpts "a@b".toList = spiderCommands "a@b".toList ∧
    commandsOf .spiderOpts "a@b".toList ≠ ccCommands := by
  refine ⟨by decide, by decide, by decide⟩

/-- C8 amended: a CC-Cluster banner selects the AR/CC-style `SET/WWV`,
`SET/FT4`, `SET/SKIMMER`, `SET/FT8` sequence; an AR-Cluster banner selects
the DX-Spider-style `set/dx/filter`, `set/wwv/output on`,
`set/station/email` sequence; and a rejected callsign is not distinguishable
from a bare timeout — whenever the probe completed without OSError and the
acknowledgement prompt goes unmatched, `login` fails with the same
`AttributeError` in both cases; no `LoginRejected` error exists. -/
theorem login_dialect_selection :
    (login [ProbeEv.m 0, ProbeEv.m (-1)] true = .ok .ccOpts) ∧
    (login [ProbeEv.m 1, ProbeEv.m (-1)] true = .ok .spiderOpts) ∧
    (∀ email, commandsOf .ccOpts email = ccCommands) ∧
    (∀ email, commandsOf .spiderOpts email = spiderCommands email) ∧
    (∀ (banner : List ProbeEv) (opts : Option OptionsFn),
      probeDialect banner 5 none = .ok opts →
      login banner false = .attrError) := by
  refine ⟨by decide, by decide, fun _ => rfl, fun _ => rfl, ?_⟩
  intro banner opts h
  unfold login
  rw [h]
  rfl

/-- Witness for the amended C8: concrete CC banner, with and without the
acknowledgement. -/
theorem login_dialect_selection_witness :
    login [ProbeEv.m 0, ProbeEv.m (-1)] true = .ok .ccOpts ∧
    login [ProbeEv.m 0, ProbeEv.m (-1)] false = .attrError :=
  ⟨login_dialect_selection.1,
   login_dialect_selection.2.2.2.2 [ProbeEv.m 0, ProbeEv.m (-1)]
     (some .ccOpts) rfl⟩

/-- Effect of the exception escaping `login` on `main`'s connection loop
(lines 453-463): only `OSError` is caught (logged, next cluster); any other
exception propagates out of `main` and the process exits. -/
inductive ProcEffect
  | keepsCycling
  | exits
deriving DecidableEq, Repr

/-- The `except OSError` handler of `main` applied to a `login` outcome. -/
def orchestratorStep : LoginOutcome → ProcEffect
  | .ok _ => .keepsCycling
  | .osError => .keepsCycling
  | .unboundLocal => .exits
  | .attrError => .exits

/-- C10: login-phase inputs that terminate the whole process exist: a plain
"enter your call" prompt as first matched banner (pattern 2, no CC/AR banner
seen) leaves `set_options` unassigned, so `login` raises `UnboundLocalError`
at the `set_options(...)` call; an unmatched acknowledgement leaves
`match = None`, so `match.group()` raises `AttributeError`; neither is an
`OSError`, so `main`'s `except OSError` does not catch them and the process
exits instead of advancing to the next server (while a genuine OSError keeps
the cycle going). -/
theorem login_crash_paths :
    login [ProbeEv.m 2] true = .unboundLocal ∧
    orchestratorStep .unboundLocal = .exits ∧
    login [ProbeEv.m 0, ProbeEv.m (-1)] false = .attrError ∧
    orchestratorStep .attrError = .exits ∧
    orchestratorStep .osError = .keepsCycling := by
  refine ⟨by decide, rfl, by decide, rfl, rfl⟩

/-
  ClusterOrchestrator: the connection loop of `main` (lines 452-463).
-/

/-- A server address: host and port. -/
abbrev Addr := List Char × Nat

/-- The address hard-coded inside the loop at dxcluster.py line 455
(`cluster = ('dxc.w4mya.us', 7373)`), overriding the cycled value. -/
def hardcodedCluster : Addr := ("dxc.w4mya.us".toList, 7373)

/-- The first n connection attempts of `main`'s loop (lines 452-463): the
configured list is shuffled once (`random.shuffle`, order abstracted into
`shuffled`) and cycled by `itertools.cycle`, but line 455 reassigns
`cluster` to the hard-coded address before opening each session, so every
attempt targets `hardcodedCluster`; with an empty configured list `cycle`
yields nothing (and `main` would already have exited at the empty-server
check). -/
def connectionAttempts (shuffled : List Addr) (n : Nat) : List Addr :=
  if shuffled.isEmpty then []
  else List.replicate n hardcodedCluster

/-- C1: the orchestrator does not cycle through the configured list.  With
the configured one-server list ["example.com:7300"] (so K = 1), the first K
attempts all target the hard-coded dxc.w4mya.us:7373 — an address outside
the configured list — and the configured address is never attempted. -/
theorem orchestrator_hardcoded_override :
    connectionAttempts [("example.com".toList, 7300)] 1 = [hardcodedCluster] ∧
    hardcodedCluster ∉ [(("example.com".toList, 7300) : Addr)] ∧
    (("example.com".toList, 7300) : Addr) ∉
      connectionAttempts [("example.com".toList, 7300)] 1 := by
  refine ⟨by decide, by decide, by decide⟩
